import Mathlib

/-!
Verification of the microbin paste lifecycle engine against its specification.

The development shallowly embeds the Rust sources:
  src/util/misc.rs      (encrypt / decrypt / encrypt_bytes / decrypt_bytes / remove_expired)
  src/pasta.rs          (Pasta, PastaFile, locator predicates, last_read_days_ago)
  src/util/storage.rs   (save_file / get_file / delete_file)
  src/endpoints/create.rs (paste creation: id assignment, encrypted_key)
  src/endpoints/remove.rs (post_remove authorization decision)

External effects (the magic_crypt crate, the filesystem, the S3 client, the
random source, the id-slug codec and configuration values from args.rs) are
modelled explicitly; every such model carries a doc comment saying so.
-/

/-- Error type of the decryption contract.  The spec collapses all decrypt
failures (wrong key, corrupt ciphertext, malformed base64) into one kind. -/
inductive MagicCryptError where
  | decryptError
deriving DecidableEq

/-- Modelled from the spec: the external magic_crypt crate (not part of this
repository) is an ideal symmetric cipher: ciphertext is never empty, decrypting
with the encrypting key recovers the plaintext, and any other key fails.  The
header plays the role of the key-derivation tag: a unary length prefix followed
by the key itself, which makes headers of distinct keys prefix-incompatible. -/
def mcHeader (key : List Char) : List Char :=
  List.replicate key.length '#' ++ ':' :: key

/-- Modelled from the spec: magic_crypt encryption of a character payload. -/
def mcEncryptList (key text : List Char) : List Char :=
  mcHeader key ++ text

/-- Modelled from the spec: magic_crypt decryption of a character payload. -/
def mcDecryptList (key ct : List Char) : Option (List Char) :=
  if (mcHeader key).isPrefixOf ct then some (ct.drop (mcHeader key).length)
  else none

/-- Modelled from the spec: mc.encrypt_str_to_base64 of the magic_crypt crate. -/
def mcEncryptStrToBase64 (key text : String) : String :=
  ⟨mcEncryptList key.data text.data⟩

/-- Modelled from the spec: mc.decrypt_base64_to_string of the magic_crypt crate. -/
def mcDecryptBase64ToStr (key ct : String) : Except MagicCryptError String :=
  match mcDecryptList key.data ct.data with
  | some l => .ok ⟨l⟩
  | none => .error .decryptError

/-- src/util/misc.rs, fn encrypt: empty plaintext short-circuits to the empty
string, otherwise the payload is encrypted under the passphrase. -/
def encrypt (text_str key_str : String) : String :=
  if text_str = "" then "" else mcEncryptStrToBase64 key_str text_str

/-- src/util/misc.rs, fn decrypt: empty ciphertext short-circuits to Ok(""),
otherwise the payload is decrypted under the passphrase. -/
def decrypt (text_str key_str : String) : Except MagicCryptError String :=
  if text_str = "" then .ok "" else mcDecryptBase64ToStr key_str text_str

/-- Modelled from the spec: mc.encrypt_bytes_to_bytes header for byte payloads
(35 and 58 are the code points of the characters used in mcHeader). -/
def mcByteHeader (key : List Char) : List Nat :=
  List.replicate key.length 35 ++ 58 :: key.map Char.toNat

/-- src/util/misc.rs, fn encrypt_bytes: no empty-input short circuit; the
byte payload is always run through the cipher. -/
def encrypt_bytes (data : List Nat) (passphrase : String) : List Nat :=
  mcByteHeader passphrase.data ++ data

/-- src/util/misc.rs, fn decrypt_bytes: no empty-input short circuit. -/
def decrypt_bytes (data : List Nat) (passphrase : String) :
    Except MagicCryptError (List Nat) :=
  if (mcByteHeader passphrase.data).isPrefixOf data then
    .ok (data.drop (mcByteHeader passphrase.data).length)
  else .error .decryptError

lemma mcHeader_ne_nil (key : List Char) : mcHeader key ≠ [] := by
  simp [mcHeader]

lemma mcDecryptList_encrypt (key text : List Char) :
    mcDecryptList key (mcEncryptList key text) = some text := by
  have h : (mcHeader key).isPrefixOf (mcEncryptList key text) = true := by
    rw [ List.isPrefixOf_iff_prefix]
    exact List.prefix_append _ _
  simp [mcDecryptList, mcEncryptList, h, List.drop_left]

lemma header_shape_prefix_inj : ∀ (a b : Nat) (u v : List Char),
    (List.replicate b '#' ++ ':' :: v) <+: (List.replicate a '#' ++ ':' :: u) →
    a = b ∧ v <+: u := by
  intro a
  induction a with
  | zero =>
    intro b u v h
    cases b with
    | zero =>
      simp only [List.replicate, List.nil_append] at h
      rw [List.cons_prefix_cons] at h
      exact ⟨rfl, h.2⟩
    | succ n =>
      simp only [List.replicate_succ, List.replicate, List.nil_append,
        List.cons_append] at h
      rw [List.cons_prefix_cons] at h
      exact absurd h.1 (by decide)
  | succ m ih =>
    intro b u v h
    cases b with
    | zero =>
      simp only [List.replicate_succ, List.replicate, List.nil_append,
        List.cons_append] at h
      rw [List.cons_prefix_cons] at h
      exact absurd h.1 (by decide)
    | succ n =>
      simp only [List.replicate_succ, List.cons_append] at h
      rw [List.cons_prefix_cons] at h
      obtain ⟨hmn, hrest⟩ := ih n u v h.2
      exact ⟨by omega, hrest⟩

lemma mcDecryptList_wrong_key (k₁ k₂ text : List Char) (h : k₁ ≠ k₂) :
    mcDecryptList k₂ (mcEncryptList k₁ text) = none := by
  have h' : ¬ ((mcHeader k₂).isPrefixOf (mcEncryptList k₁ text) = true) := by
    rw [ List.isPrefixOf_iff_prefix]
    intro hpre
    unfold mcEncryptList mcHeader at hpre
    rw [List.append_assoc, List.cons_append] at hpre
    obtain ⟨hab, hvu⟩ :=
      header_shape_prefix_inj k₁.length k₂.length (k₁ ++ text) k₂ hpre
    rw [ List.prefix_iff_eq_take] at hvu
    rw [← hab, List.take_left] at hvu
    exact h hvu.symm
  simp [mcDecryptList, h']

lemma mcEncrypt_ne_empty (k s : String) : mcEncryptStrToBase64 k s ≠ "" := by
  intro h
  have hd : mcEncryptList k.data s.data = ([] : List Char) :=
    congrArg String.data h
  simp only [mcEncryptList, List.append_eq_nil] at hd
  exact mcHeader_ne_nil k.data hd.1

/-- Claim C1: for every non-empty string s and key k₁, decrypting the
encryption of s under k₁ with k₁ returns Ok s, and decrypting it with any
other key k₂ fails with the DecryptError kind. -/
theorem c1_encrypt_decrypt_roundtrip (s k₁ : String) (hs : s ≠ "") :
    decrypt (encrypt s k₁) k₁ = .ok s ∧
    ∀ k₂ : String, k₁ ≠ k₂ →
      decrypt (encrypt s k₁) k₂ = .error .decryptError := by
  have hne : (⟨mcEncryptList k₁.data s.data⟩ : String) ≠ "" :=
    mcEncrypt_ne_empty k₁ s
  constructor
  · simp [decrypt, encrypt, hs, hne, mcDecryptBase64ToStr, mcEncryptStrToBase64,
      mcDecryptList_encrypt]
  · intro k₂ hk
    have hdata : k₁.data ≠ k₂.data := by
      intro hh
      exact hk (congrArg String.mk hh)
    simp [decrypt, encrypt, hs, hne, mcDecryptBase64ToStr, mcEncryptStrToBase64,
      mcDecryptList_wrong_key k₁.data k₂.data s.data hdata]

/-- Claim C1 witness: the round trip and the wrong-key failure evaluated at a
concrete plaintext and two concrete distinct keys. -/
theorem c1_witness :
    decrypt (encrypt "ab" "k") "k" = .ok "ab" ∧
    decrypt (encrypt "ab" "k") "u" = .error .decryptError := by
  constructor
  · exact (c1_encrypt_decrypt_roundtrip "ab" "k" (by decide)).1
  · exact (c1_encrypt_decrypt_roundtrip "ab" "k" (by decide)).2 "u" (by decide)

/-- Claim C5 counterexample: encrypt_bytes applied to the empty byte array is
not the empty byte array — the byte-array variant has no empty-input short
circuit (the cipher always emits at least one padded block), contradicting the
claim that it "behaves the same way" as the string variant. -/
theorem c5_counterexample : encrypt_bytes [] "pw" ≠ [] := by decide

/-- Claim C5 (amended): the string variants short-circuit on empty input
(encrypt "" k = "" and decrypt "" k = Ok ""), but encrypt_bytes of the empty
byte array returns a non-empty ciphertext under every passphrase; decrypt_bytes
of that ciphertext still recovers the empty array. -/
theorem c5_amended :
    (∀ k : String, encrypt "" k = "" ∧ decrypt "" k = .ok "") ∧
    (∀ pw : String, encrypt_bytes [] pw ≠ [] ∧
      decrypt_bytes (encrypt_bytes [] pw) pw = .ok []) := by
  constructor
  · intro k
    exact ⟨rfl, rfl⟩
  · intro pw
    constructor
    · simp [encrypt_bytes, mcByteHeader]
    · have h : (mcByteHeader pw.data).isPrefixOf (mcByteHeader pw.data) = true := by
        rw [ List.isPrefixOf_iff_prefix]
      simp [decrypt_bytes, encrypt_bytes, h, List.drop_length]

/-- Claim C5 witness: the amended statement evaluated at concrete keys. -/
theorem c5_witness :
    encrypt "" "k" = "" ∧ decrypt_bytes (encrypt_bytes [] "pw") "pw" = .ok [] :=
  ⟨(c5_amended.1 "k").1, (c5_amended.2 "pw").2⟩

/-- src/pasta.rs, struct PastaFile: a file reference whose name field is the
tagged-union storage locator; size in bytes. -/
structure PastaFile where
  name : String
  size : Nat
deriving DecidableEq

/-- Rust str::starts_with on character sequences. -/
def starts_with (s pre : String) : Bool :=
  pre.data.isPrefixOf s.data

/-- src/pasta.rs, PastaFile::is_s3: locator tagged as unencrypted object
storage. -/
def PastaFile.is_s3 (f : PastaFile) : Bool :=
  starts_with f.name "s3://"

/-- src/pasta.rs, PastaFile::is_s3_encrypted: locator tagged as encrypted
object storage ("s3:" but not "s3://"). -/
def PastaFile.is_s3_encrypted (f : PastaFile) : Bool :=
  starts_with f.name "s3:" && !starts_with f.name "s3://"

/-- src/pasta.rs, PastaFile::display_name: for "s3://..." the part after the
last '/' (rsplit('/').next()), for "s3:..." the part after the tag, otherwise
the locator itself. -/
def PastaFile.display_name (f : PastaFile) : String :=
  if starts_with f.name "s3://" then
    ⟨(f.name.data.reverse.takeWhile (· != '/')).reverse⟩
  else if starts_with f.name "s3:" then ⟨f.name.data.drop 3⟩
  else f.name

/-- src/pasta.rs, struct Pasta.  The Rust field `private` is `is_private`
here because `private` is a Lean keyword; i64 timestamps are Int, u64
counters are Nat. -/
structure Pasta where
  id : Nat
  content : String
  file : Option PastaFile
  extension : String
  is_private : Bool
  readonly : Bool
  editable : Bool
  encrypt_server : Bool
  encrypt_client : Bool
  encrypted_key : Option String
  created : Int
  expiration : Int
  last_read : Int
  read_count : Nat
  burn_after_reads : Nat
  pasta_type : String
deriving DecidableEq

/-- src/pasta.rs, Pasta::last_read_days_ago with the current time lifted to a
parameter: ((timenow - last_read) / 86400) as u16, with Rust's
truncated i64 division (Int.tdiv) and the truncating i64-to-u16 cast
(% 65536 on the two's-complement value, i.e. emod). -/
def last_read_days_ago (now : Int) (p : Pasta) : Nat :=
  ((Int.tdiv (now - p.last_read) 86400) % 65536).toNat

/-- src/util/misc.rs, the retain predicate of remove_expired, with the current
time and ARGS.gc_days (a u16 configuration value, args.rs) as parameters. -/
def keepPasta (now : Int) (gcDays : Nat) (p : Pasta) : Bool :=
  ((p.expiration == 0) || decide (now < p.expiration)) &&
  (decide (p.read_count < p.burn_after_reads) || (p.burn_after_reads == 0)) &&
  (decide (last_read_days_ago now p < gcDays) || (gcDays == 0))

/-- src/util/misc.rs, remove_expired restricted to its effect on the in-memory
collection: Vec::retain with the keep predicate. -/
def remove_expired (now : Int) (gcDays : Nat) (pastas : List Pasta) : List Pasta :=
  pastas.filter (keepPasta now gcDays)

/-- The spec's eviction predicate, written from the spec's words (§4.4): an
entity is evictable iff its explicit expiry is reached, its read budget is
exhausted, or it is inactive beyond the retention window. -/
def evictableSpec (now : Int) (gcDays : Nat) (p : Pasta) : Prop :=
  (p.expiration ≠ 0 ∧ p.expiration ≤ now) ∨
  (p.burn_after_reads ≠ 0 ∧ p.read_count ≥ p.burn_after_reads) ∨
  (gcDays ≠ 0 ∧ now - p.last_read ≥ (gcDays : Int) * 86400)

instance evictableSpecDecidable (now : Int) (gcDays : Nat) (p : Pasta) :
    Decidable (evictableSpec now gcDays p) :=
  inferInstanceAs (Decidable
    ((p.expiration ≠ 0 ∧ p.expiration ≤ now) ∨
     (p.burn_after_reads ≠ 0 ∧ p.read_count ≥ p.burn_after_reads) ∨
     (gcDays ≠ 0 ∧ now - p.last_read ≥ (gcDays : Int) * 86400)))

lemma last_read_days_ago_eq (now : Int) (p : Pasta)
    (h0 : 0 ≤ now - p.last_read) (h1 : now - p.last_read < 65536 * 86400) :
    last_read_days_ago now p = (now - p.last_read).toNat / 86400 := by
  obtain ⟨n, hn⟩ : ∃ n : ℕ, now - p.last_read = (n : Int) :=
    ⟨(now - p.last_read).toNat, (Int.toNat_of_nonneg h0).symm⟩
  unfold last_read_days_ago
  rw [hn] at h1 ⊢
  have h2 : Int.tdiv (↑n) 86400 = ((n / 86400 : ℕ) : Int) := by
    exact_mod_cast (Int.ofNat_tdiv n 86400).symm
  have h3 : n / 86400 < 65536 := by
    rw [Nat.div_lt_iff_lt_mul (by norm_num)]
    exact_mod_cast h1
  rw [h2, Int.emod_eq_of_lt (by positivity) (by exact_mod_cast h3)]
  omega

lemma keep_iff_not_evictable (now : Int) (gcDays : Nat) (p : Pasta)
    (hg : gcDays < 65536) (h0 : 0 ≤ now - p.last_read)
    (h1 : now - p.last_read < 65536 * 86400) :
    keepPasta now gcDays p = true ↔ ¬ evictableSpec now gcDays p := by
  unfold keepPasta evictableSpec
  rw [last_read_days_ago_eq now p h0 h1]
  simp only [Bool.and_eq_true, Bool.or_eq_true, decide_eq_true_eq, beq_iff_eq]
  omega

/-- Claim C2 (amended): the sweep retains a paste iff it is not evictable in
the spec's sense, provided gc_days is in u16 range and the inactivity gap
now - last_read lies in [0, 2^16 * 86400); outside that window the truncating
i64-to-u16 cast in last_read_days_ago makes the two sides diverge.  In
particular the burn boundary (burn_after_reads = 10: read_count 10 evictable,
9 not) holds. -/
theorem c2_sweep_retains_iff_not_evictable (now : Int) (gcDays : Nat)
    (p : Pasta) (ps : List Pasta) (hg : gcDays < 65536)
    (h0 : 0 ≤ now - p.last_read) (h1 : now - p.last_read < 65536 * 86400) :
    p ∈ remove_expired now gcDays ps ↔ p ∈ ps ∧ ¬ evictableSpec now gcDays p := by
  unfold remove_expired
  rw [List.mem_filter, keep_iff_not_evictable now gcDays p hg h0 h1]

/-- A paste whose last_read lies one day in the future of the sweep instant:
the i64 day difference is -1, which the u16 cast turns into 65535. -/
def gcCexPasta : Pasta :=
  ⟨1, "", none, "", false, false, true, false, false, none, 0, 0, 86400, 0, 0, ""⟩

/-- Claim C2 counterexample: at now = 0 and gc_days = 1 the code evicts
gcCexPasta (last_read_days_ago casts -1 to 65535 ≥ gc_days) although the
claim's predicate says it is not evictable, so "retains iff not evictable"
fails as stated. -/
theorem c2_counterexample :
    ¬ (gcCexPasta ∈ remove_expired 0 1 [gcCexPasta] ↔
        gcCexPasta ∈ [gcCexPasta] ∧ ¬ evictableSpec 0 1 gcCexPasta) := by
  decide

/-- A paste at the burn boundary: burn_after_reads = 10, read_count = 10. -/
def burnPasta10 : Pasta :=
  ⟨2, "", none, "", false, false, true, false, false, none, 0, 0, 0, 10, 10, ""⟩

/-- Same paste one read earlier: read_count = 9. -/
def burnPasta9 : Pasta :=
  ⟨2, "", none, "", false, false, true, false, false, none, 0, 0, 0, 9, 10, ""⟩

/-- Claim C2 witness: the amended equivalence applied at the burn boundary
pastes, together with the boundary facts themselves. -/
theorem c2_witness :
    (burnPasta10 ∈ remove_expired 0 0 [burnPasta10] ↔
      burnPasta10 ∈ [burnPasta10] ∧ ¬ evictableSpec 0 0 burnPasta10) ∧
    evictableSpec 0 0 burnPasta10 ∧ ¬ evictableSpec 0 0 burnPasta9 := by
  refine ⟨?_, by decide, by decide⟩
  exact c2_sweep_retains_iff_not_evictable 0 0 burnPasta10 [burnPasta10]
    (by decide) (by decide) (by decide)

lemma dropWhile_ne_slash_cons : ∀ (m : List Char), '/' ∈ m →
    ∃ t, m.dropWhile (· != '/') = '/' :: t := by
  intro m hm
  induction m with
  | nil => cases hm
  | cons c ms ih =>
    by_cases hc : c = '/'
    · subst hc
      exact ⟨ms, by simp [List.dropWhile_cons]⟩
    · have hmem : '/' ∈ ms := by
        rcases List.mem_cons.mp hm with h | h
        · exact absurd h.symm hc
        · exact h
      obtain ⟨t, ht⟩ := ih hmem
      exact ⟨t, by simp [List.dropWhile_cons, hc, ht]⟩

lemma name_decomp_slash (l : List Char) (hl : '/' ∈ l) :
    ∃ pre : List Char,
      l = pre ++ '/' :: (l.reverse.takeWhile (· != '/')).reverse ∧
      ∀ c ∈ (l.reverse.takeWhile (· != '/')).reverse, c ≠ '/' := by
  have hrev : '/' ∈ l.reverse := List.mem_reverse.mpr hl
  obtain ⟨t, ht⟩ := dropWhile_ne_slash_cons l.reverse hrev
  refine ⟨t.reverse, ?_, ?_⟩
  · conv_lhs =>
      rw [← List.reverse_reverse l,
        ← List.takeWhile_append_dropWhile (· != '/') l.reverse]
    rw [ht]
    simp [List.reverse_append, List.reverse_cons, List.append_assoc]
  · intro c hc
    have := List.mem_takeWhile_imp (List.mem_reverse.mp hc)
    simpa using this

lemma starts_s3sl_imp_s3 (s : String) :
    starts_with s "s3://" = true → starts_with s "s3:" = true := by
  unfold starts_with
  rw [ List.isPrefixOf_iff_prefix, List.isPrefixOf_iff_prefix]
  intro h
  refine List.IsPrefix.trans ?_ h
  exact ⟨['/', '/'], rfl⟩

/-- Claim C3: the locator codec recovers backend, encryption state and display
name from the locator string: an "s3://" locator is is_s3 with the display
name being the part after the last '/', an "s3:"-but-not-"s3://" locator is
is_s3_encrypted with the display name following the tag, anything else has
both predicates false and displays as itself; the two predicates are never
both true. -/
theorem c3_locator_codec (f : PastaFile) :
    (¬ (f.is_s3 = true ∧ f.is_s3_encrypted = true)) ∧
    (starts_with f.name "s3://" = true →
      f.is_s3 = true ∧ f.is_s3_encrypted = false ∧
      ∃ pre : List Char,
        f.name.data = pre ++ '/' :: (f.display_name).data ∧
        ∀ c ∈ (f.display_name).data, c ≠ '/') ∧
    (starts_with f.name "s3:" = true → starts_with f.name "s3://" = false →
      f.is_s3 = false ∧ f.is_s3_encrypted = true ∧
      f.name.data = 's' :: '3' :: ':' :: (f.display_name).data) ∧
    (starts_with f.name "s3:" = false →
      f.is_s3 = false ∧ f.is_s3_encrypted = false ∧ f.display_name = f.name) := by
  refine ⟨?_, ?_, ?_, ?_⟩
  · intro ⟨h1, h2⟩
    unfold PastaFile.is_s3 at h1
    unfold PastaFile.is_s3_encrypted at h2
    simp [h1] at h2
  · intro h
    refine ⟨h, by simp [PastaFile.is_s3_encrypted, h], ?_⟩
    have hsl : '/' ∈ f.name.data := by
      have hp := h
      unfold starts_with at hp
      rw [ List.isPrefixOf_iff_prefix] at hp
      obtain ⟨t, ht⟩ := hp
      rw [← ht]
      simp
    obtain ⟨pre, hdec, hns⟩ := name_decomp_slash f.name.data hsl
    refine ⟨pre, ?_, ?_⟩
    · simpa [PastaFile.display_name, h] using hdec
    · intro c hc
      exact hns c (by simpa [PastaFile.display_name, h] using hc)
  · intro h3 h4
    refine ⟨by simp [PastaFile.is_s3, h4],
      by simp [PastaFile.is_s3_encrypted, h3, h4], ?_⟩
    have hp := h3
    unfold starts_with at hp
    rw [ List.isPrefixOf_iff_prefix] at hp
    obtain ⟨t, ht⟩ := hp
    have hdata : f.name.data = 's' :: '3' :: ':' :: t := by
      rw [← ht]
      rfl
    rw [hdata]
    simp [PastaFile.display_name, h3, h4, hdata]
  · intro h
    have h4 : starts_with f.name "s3://" = false := by
      cases hb : starts_with f.name "s3://"
      · rfl
      · exact absurd (starts_s3sl_imp_s3 f.name hb) (by simp [h])
    exact ⟨by simp [PastaFile.is_s3, h4],
      by simp [PastaFile.is_s3_encrypted, h],
      by simp [PastaFile.display_name, h, h4]⟩

/-- Claim C3 witness: a local encrypted file stored under the locator
"report.pdf" has both predicates false and displays as itself, and a concrete
"s3://" locator displays the part after the last '/'. -/
theorem c3_witness :
    PastaFile.is_s3 ⟨"report.pdf", 0⟩ = false ∧
    PastaFile.is_s3_encrypted ⟨"report.pdf", 0⟩ = false ∧
    PastaFile.display_name ⟨"report.pdf", 0⟩ = "report.pdf" ∧
    PastaFile.is_s3 ⟨"s3://attachments/id/a.png", 0⟩ = true := by
  have h := (c3_locator_codec ⟨"report.pdf", 0⟩).2.2.2 (by decide)
  have h2 := ((c3_locator_codec ⟨"s3://attachments/id/a.png", 0⟩).2.1 (by decide)).1
  exact ⟨h.1, h.2.1, h.2.2, h2⟩

/-- Claim C7: the sweep is idempotent — sweeping the result of a sweep at the
same instant changes nothing and removes nothing, and the first sweep retains
exactly the pastes the keep predicate accepts. -/
theorem c7_sweep_idempotent (now : Int) (g : Nat) (ps : List Pasta) :
    remove_expired now g (remove_expired now g ps) = remove_expired now g ps ∧
    (remove_expired now g ps).filter (fun p => !keepPasta now g p) = [] ∧
    ∀ p ∈ ps, (p ∈ remove_expired now g ps ↔ keepPasta now g p = true) := by
  refine ⟨?_, ?_, ?_⟩
  · unfold remove_expired
    rw [List.filter_filter]
    simp
  · rw [List.filter_eq_nil_iff]
    intro p hp
    have := (List.mem_filter.mp hp).2
    simp [this]
  · intro p hp
    simp [remove_expired, List.mem_filter, hp]

/-- Claim C7 witness: idempotence evaluated on a concrete two-paste store, one
evictable and one not. -/
theorem c7_witness :
    remove_expired 0 0 (remove_expired 0 0 [burnPasta10, burnPasta9]) =
      remove_expired 0 0 [burnPasta10, burnPasta9] ∧
    (burnPasta9 ∈ remove_expired 0 0 [burnPasta10, burnPasta9] ↔
      keepPasta 0 0 burnPasta9 = true) := by
  refine ⟨(c7_sweep_idempotent 0 0 [burnPasta10, burnPasta9]).1, ?_⟩
  exact (c7_sweep_idempotent 0 0 [burnPasta10, burnPasta9]).2.2 burnPasta9
    (by decide)

instance exceptDecEq {ε α : Type} [DecidableEq ε] [DecidableEq α] :
    DecidableEq (Except ε α) := fun a b =>
  match a, b with
  | .ok x, .ok y =>
    if h : x = y then .isTrue (by rw [h]) else .isFalse (by simp [h])
  | .error x, .error y =>
    if h : x = y then .isTrue (by rw [h]) else .isFalse (by simp [h])
  | .ok _, .error _ => .isFalse (by simp)
  | .error _, .ok _ => .isFalse (by simp)

/-- Outcome of the POST /remove/{id} handler for a found paste: redirect to
the upload page (unprotected pastes), rejection (redirect to the incorrect-
password page), or deletion. -/
inductive RemoveOutcome where
  | redirectUpload
  | rejected
  | deleted
deriving DecidableEq

/-- src/endpoints/create.rs: the encrypted_key field after creation — it is
initialised to Some("") and overwritten with Some(encrypt(id.to_string(),
plain_key)) only when the paste is readonly and the passphrase is non-empty. -/
def create_encrypted_key (readonly : Bool) (plain_key : String) (id : Nat) :
    Option String :=
  if plain_key != "" && readonly then some (encrypt (toString id) plain_key)
  else some ""

/-- src/endpoints/remove.rs, the password check of post_remove: admin password
first, then for readonly pastes the decryption of encrypted_key compared with
the id, then for server-encrypted pastes a trial decryption of the content. -/
def password_correct (admin : String) (p : Pasta) (password : String) : Bool :=
  if password == admin then true
  else if p.readonly then
    match p.encrypted_key with
    | some k =>
      match decrypt k password with
      | .ok d => d == toString p.id
      | .error _ => false
    | none => false
  else if p.encrypt_server then
    match decrypt p.content password with
    | .ok _ => true
    | .error _ => false
  else false

/-- src/endpoints/remove.rs, the decision of post_remove for a found paste
with ARGS.auth_admin_password as a parameter: unprotected pastes redirect to
the upload flow, an empty password is rejected before any check, otherwise
the password check decides between deletion and rejection. -/
def post_remove_outcome (admin : String) (p : Pasta) (password : String) :
    RemoveOutcome :=
  if !(p.readonly || p.encrypt_server || !p.editable) then .redirectUpload
  else if password == "" then .rejected
  else if password_correct admin p password then .deleted
  else .rejected

/-- Claim C4 (amended): creation of a readonly paste with non-empty passphrase
pw stores encrypted_key = Some(encrypt(id.to_string(), pw)); a later delete
removes the paste iff the supplied password is non-empty and is either the
admin password or decrypts encrypted_key back to the id — an empty supplied
password is always rejected before any check, even if it equals the admin
password; and a wrong passphrase is rejected with the same outcome as a
missing (empty) one. -/
theorem c4_readonly_ownership (admin pw password : String) (p : Pasta)
    (hro : p.readonly = true) (hpw : pw ≠ "")
    (hkey : p.encrypted_key = some (encrypt (toString p.id) pw)) :
    p.encrypted_key = create_encrypted_key p.readonly pw p.id ∧
    (post_remove_outcome admin p password = .deleted ↔
      (password ≠ "" ∧ (password = admin ∨
        decrypt (encrypt (toString p.id) pw) password = .ok (toString p.id)))) ∧
    ((password ≠ admin ∧
        decrypt (encrypt (toString p.id) pw) password ≠ .ok (toString p.id)) →
      post_remove_outcome admin p password = post_remove_outcome admin p "") := by
  refine ⟨by simp [create_encrypted_key, hro, hpw, hkey], ?_, ?_⟩
  · by_cases hpass : password = ""
    · simp [post_remove_outcome, hro, hpass]
    · by_cases hadm : password = admin
      · simp [post_remove_outcome, password_correct, hro, hpass, hadm]
      · rcases hdec : decrypt (encrypt (toString p.id) pw) password with e | d
        · simp [post_remove_outcome, password_correct, hro, hpass, hadm, hkey,
            hdec]
        · by_cases hd : d = toString p.id
          · simp [post_remove_outcome, password_correct, hro, hpass, hadm,
              hkey, hdec, hd]
          · simp [post_remove_outcome, password_correct, hro, hpass, hadm,
              hkey, hdec, hd]
  · intro ⟨hadm, hdec⟩
    by_cases hpass : password = ""
    · rw [hpass]
    · rcases hd : decrypt (encrypt (toString p.id) pw) password with e | d
      · simp [post_remove_outcome, password_correct, hro, hpass, hadm, hkey, hd]
      · have hne : d ≠ toString p.id := by
          intro hh
          exact hdec (by rw [hd, hh])
        simp [post_remove_outcome, password_correct, hro, hpass, hadm, hkey,
          hd, hne]

/-- A readonly paste with id 42 whose encrypted_key was created under the
passphrase "pw1". -/
def roPasta : Pasta :=
  ⟨42, "", none, "", false, true, true, false, false,
    some (encrypt "42" "pw1"), 0, 0, 0, 0, 0, ""⟩

/-- Claim C4 witness: deleting roPasta with the creating passphrase succeeds,
and with the wrong passphrase "pw2" gives the same rejection as an empty
password. -/
theorem c4_witness :
    post_remove_outcome "adm" roPasta "pw1" = .deleted ∧
    post_remove_outcome "adm" roPasta "pw2" = post_remove_outcome "adm" roPasta "" := by
  constructor
  · exact ((c4_readonly_ownership "adm" "pw1" "pw1" roPasta rfl (by decide)
      (by rfl)).2.1).mpr ⟨by decide, Or.inr (by decide)⟩
  · exact (c4_readonly_ownership "adm" "pw1" "pw2" roPasta rfl (by decide)
      (by rfl)).2.2 ⟨by decide, by decide⟩

/-- Claim C4 counterexample: with an empty configured admin password and an
empty supplied password the claim's equivalence fails — the supplied password
equals the admin password, so the claim says the paste is removed, but the
code rejects any empty password before checking it. -/
theorem c4_counterexample :
    ¬ (post_remove_outcome "" roPasta "" = .deleted ↔
        (("" : String) = "" ∨
          decrypt (encrypt (toString roPasta.id) "pw1") "" =
            .ok (toString roPasta.id))) := by
  decide

/-- Modelled from the spec: the external id-codec (animal names / hashids,
selected by ARGS.hash_ids) rendering a numeric id as a slug; modelled as the
decimal rendering, which is likewise injective. -/
def id_as_animals (p : Pasta) : String :=
  toString p.id

/-- src/util/misc.rs, remove_expired: the storage path computed for the
backing file of an evicted paste. -/
def eviction_storage_path (p : Pasta) (f : PastaFile) : String :=
  if p.encrypt_server then
    if f.is_s3_encrypted then "s3://attachments/" ++ id_as_animals p ++ "/data.enc"
    else "data.enc"
  else f.name

/-- The observable effects of one sweep: the retained collection, the ids
deleted from the durable index, the object-store deletions spawned, and the
local remove_file attempts with their success flag (a failed attempt is only
logged). -/
structure SweepResult where
  retained : List Pasta
  dbDeletes : List Nat
  s3Deletes : List (String × String)
  localAttempts : List (String × Bool)
deriving DecidableEq

/-- src/util/misc.rs, remove_expired: the per-paste step of the sweep.  The
oracle fsOk gives the outcome of fs::remove_file for a local path; the result
is inspected only for logging. -/
def sweep_step (now : Int) (gcDays : Nat) (dataDir : String)
    (fsOk : String → Bool) (p : Pasta) (acc : SweepResult) : SweepResult :=
  if keepPasta now gcDays p then
    ⟨p :: acc.retained, acc.dbDeletes, acc.s3Deletes, acc.localAttempts⟩
  else
    match p.file with
    | none => ⟨acc.retained, p.id :: acc.dbDeletes, acc.s3Deletes, acc.localAttempts⟩
    | some f =>
      let path := eviction_storage_path p f
      if starts_with path "s3://" then
        ⟨acc.retained, p.id :: acc.dbDeletes,
          (id_as_animals p, path) :: acc.s3Deletes, acc.localAttempts⟩
      else
        let fp := dataDir ++ "/attachments/" ++ id_as_animals p ++ "/" ++ path
        ⟨acc.retained, p.id :: acc.dbDeletes, acc.s3Deletes,
          (fp, fsOk fp) :: acc.localAttempts⟩

/-- src/util/misc.rs, remove_expired with its effects made explicit. -/
def remove_expired_effects (now : Int) (gcDays : Nat) (dataDir : String)
    (fsOk : String → Bool) (ps : List Pasta) : SweepResult :=
  ps.foldr (sweep_step now gcDays dataDir fsOk) ⟨[], [], [], []⟩

lemma sweep_step_retained (now : Int) (g : Nat) (dd : String)
    (o : String → Bool) (p : Pasta) (acc : SweepResult) :
    (sweep_step now g dd o p acc).retained =
      if keepPasta now g p then p :: acc.retained else acc.retained := by
  unfold sweep_step
  by_cases hk : keepPasta now g p
  · simp [hk]
  · cases hf : p.file with
    | none => simp [hk, hf]
    | some f =>
      by_cases hs : starts_with (eviction_storage_path p f) "s3://"
      · simp [hk, hf, hs]
      · simp [hk, hf, hs]

lemma sweep_step_dbDeletes (now : Int) (g : Nat) (dd : String)
    (o : String → Bool) (p : Pasta) (acc : SweepResult) :
    (sweep_step now g dd o p acc).dbDeletes =
      if keepPasta now g p then acc.dbDeletes else p.id :: acc.dbDeletes := by
  unfold sweep_step
  by_cases hk : keepPasta now g p
  · simp [hk]
  · cases hf : p.file with
    | none => simp [hk, hf]
    | some f =>
      by_cases hs : starts_with (eviction_storage_path p f) "s3://"
      · simp [hk, hf, hs]
      · simp [hk, hf, hs]

lemma effects_retained (now : Int) (g : Nat) (dd : String)
    (o : String → Bool) (ps : List Pasta) :
    (remove_expired_effects now g dd o ps).retained = remove_expired now g ps := by
  induction ps with
  | nil => rfl
  | cons p ps ih =>
    unfold remove_expired_effects at ih ⊢
    rw [List.foldr_cons, sweep_step_retained, ih]
    unfold remove_expired
    rw [List.filter_cons]

lemma effects_dbDeletes (now : Int) (g : Nat) (dd : String)
    (o : String → Bool) (ps : List Pasta) :
    (remove_expired_effects now g dd o ps).dbDeletes =
      (ps.filter (fun p => !keepPasta now g p)).map Pasta.id := by
  induction ps with
  | nil => rfl
  | cons p ps ih =>
    unfold remove_expired_effects at ih ⊢
    rw [List.foldr_cons, sweep_step_dbDeletes, ih, List.filter_cons]
    by_cases hk : keepPasta now g p
    · simp [hk]
    · simp [hk]

/-- Claim C6: during the sweep, removal from the durable index and from the
in-memory collection does not depend on the success of the backing-file
deletion: the retained collection equals the pure sweep and the set of
durable-index deletions is the same for every file-deletion oracle, and every
evicted paste has its index row deleted and is gone from memory even when
every file deletion fails. -/
theorem c6_eviction_independent_of_file_deletion (now : Int) (g : Nat)
    (dd : String) (o₁ o₂ : String → Bool) (ps : List Pasta) :
    (remove_expired_effects now g dd o₁ ps).retained = remove_expired now g ps ∧
    (remove_expired_effects now g dd o₁ ps).dbDeletes =
      (remove_expired_effects now g dd o₂ ps).dbDeletes ∧
    ∀ p ∈ ps, keepPasta now g p = false →
      p.id ∈ (remove_expired_effects now g dd o₁ ps).dbDeletes ∧
      p ∉ remove_expired now g ps := by
  refine ⟨effects_retained now g dd o₁ ps,
    by rw [effects_dbDeletes, effects_dbDeletes], ?_⟩
  intro p hp hk
  constructor
  · rw [effects_dbDeletes]
    exact List.mem_map_of_mem Pasta.id (List.mem_filter.mpr ⟨hp, by simp [hk]⟩)
  · intro hmem
    have := (List.mem_filter.mp hmem).2
    rw [hk] at this
    cases this

/-- An evictable paste (burn budget exhausted) with a local backing file. -/
def evictedFilePasta : Pasta :=
  ⟨7, "", some ⟨"doc.txt", 3⟩, "", false, false, true, false, false, none,
    0, 0, 0, 1, 1, ""⟩

/-- Claim C6 witness: with an oracle on which every local file deletion fails,
the evicted paste is still removed from the durable index and from memory. -/
theorem c6_witness :
    evictedFilePasta.id ∈
      (remove_expired_effects 0 0 "data" (fun _ => false) [evictedFilePasta]).dbDeletes ∧
    evictedFilePasta ∉ remove_expired 0 0 [evictedFilePasta] :=
  (c6_eviction_independent_of_file_deletion 0 0 "data" (fun _ => false)
    (fun _ => false) [evictedFilePasta]).2.2 evictedFilePasta (by decide) (by decide)

/-- Rust str::strip_prefix on character sequences. -/
def dropPre (pre s : String) : Option String :=
  if pre.data.isPrefixOf s.data then some ⟨s.data.drop pre.data.length⟩
  else none

/-- Modelled from the spec: the external S3 client (rust-s3 crate).  bucketOk
is whether get_s3_bucket succeeds; the per-object outcomes carry the Display
text of the underlying error, which the repository code interpolates into its
error strings. -/
structure S3State where
  bucketOk : Bool
  bucketErr : String
  putRes : String → List Nat → Except String Unit
  getRes : String → Except String (List Nat)
  delRes : String → Except String Unit

/-- Modelled from the spec: the local filesystem (std::fs).  Each operation's
outcome is given per path; error values carry the io error's Display text. -/
structure LocalFs where
  mkdirRes : String → Except String Unit
  createRes : String → Except String Unit
  writeRes : String → List Nat → Except String Unit
  readRes : String → Except String (List Nat)
  fileExists : String → Bool
  removeRes : String → Except String Unit

/-- src/util/storage.rs, fn save_file, with the backend states and
ARGS.data_dir as parameters. -/
def save_file (s3 : S3State) (fs : LocalFs)
    (dataDir pasta_id storage_path : String) (data : List Nat) :
    Except String Unit :=
  match dropPre "s3://" storage_path with
  | some s3Path =>
    if s3.bucketOk then
      match s3.putRes s3Path data with
      | .ok _ => .ok ()
      | .error e => .error ("Failed to upload to S3: " ++ e)
    else .error ("Failed to get S3 bucket: " ++ s3.bucketErr)
  | none =>
    let dirPath := dataDir ++ "/attachments/" ++ pasta_id
    match fs.mkdirRes dirPath with
    | .error e => .error ("Failed to create directory: " ++ e)
    | .ok _ =>
      let filePath := dirPath ++ "/" ++ storage_path
      match fs.createRes filePath with
      | .error e => .error ("Failed to create file: " ++ e)
      | .ok _ =>
        match fs.writeRes filePath data with
        | .error e => .error ("Failed to write file: " ++ e)
        | .ok _ => .ok ()

/-- src/util/storage.rs, fn get_file. -/
def get_file (s3 : S3State) (fs : LocalFs)
    (dataDir pasta_id storage_path : String) : Except String (List Nat) :=
  match dropPre "s3://" storage_path with
  | some s3Path =>
    if s3.bucketOk then
      match s3.getRes s3Path with
      | .ok d => .ok d
      | .error e => .error ("Failed to get file from S3: " ++ e)
    else .error ("Failed to get S3 bucket: " ++ s3.bucketErr)
  | none =>
    let filePath := dataDir ++ "/attachments/" ++ pasta_id ++ "/" ++ storage_path
    match fs.readRes filePath with
    | .ok d => .ok d
    | .error e => .error ("Failed to read file: " ++ e)

/-- src/util/storage.rs, fn delete_file: a local file is removed only if it
exists (an absent file is not an error), the now-empty directory removal is
best-effort and its result discarded; an S3 delete failure is propagated. -/
def delete_file (s3 : S3State) (fs : LocalFs)
    (dataDir pasta_id storage_path : String) : Except String Unit :=
  match dropPre "s3://" storage_path with
  | some s3Path =>
    if s3.bucketOk then
      match s3.delRes s3Path with
      | .ok _ => .ok ()
      | .error e => .error ("Failed to delete from S3: " ++ e)
    else .error ("Failed to get S3 bucket: " ++ s3.bucketErr)
  | none =>
    let filePath := dataDir ++ "/attachments/" ++ pasta_id ++ "/" ++ storage_path
    if fs.fileExists filePath then
      match fs.removeRes filePath with
      | .ok _ => .ok ()
      | .error e => .error ("Failed to delete file: " ++ e)
    else .ok ()

/-- Claim C10: deleting an absent local (non-"s3://") file succeeds — local
delete is idempotent — while a failed object-store delete on an "s3://" path
is propagated as an error. -/
theorem c10_local_delete_idempotent (s3 : S3State) (fs : LocalFs)
    (dataDir pasta_id storage_path : String) :
    (dropPre "s3://" storage_path = none →
      fs.fileExists (dataDir ++ "/attachments/" ++ pasta_id ++ "/" ++ storage_path) = false →
      delete_file s3 fs dataDir pasta_id storage_path = .ok ()) ∧
    (∀ s3Path, dropPre "s3://" storage_path = some s3Path → s3.bucketOk = true →
      ∀ e, s3.delRes s3Path = .error e →
      delete_file s3 fs dataDir pasta_id storage_path =
        .error ("Failed to delete from S3: " ++ e)) := by
  constructor
  · intro h1 h2
    simp [delete_file, h1, h2]
  · intro sp h1 hb e he
    simp [delete_file, h1, hb, he]

/-- An S3 backend whose bucket is reachable but whose delete always fails. -/
def s3DeleteFails : S3State :=
  ⟨true, "boom", fun _ _ => .ok (), fun _ => .ok [], fun _ => .error "timeout"⟩

/-- A local filesystem with no files. -/
def fsAbsent : LocalFs :=
  ⟨fun _ => .ok (), fun _ => .ok (), fun _ _ => .ok (),
    fun _ => .error "No such file or directory (os error 2)",
    fun _ => false, fun _ => .ok ()⟩

/-- Claim C10 witness: both branches evaluated at concrete states and paths. -/
theorem c10_witness :
    delete_file s3DeleteFails fsAbsent "data" "pid" "doc.txt" = .ok () ∧
    delete_file s3DeleteFails fsAbsent "data" "pid" "s3://attachments/pid/doc.txt" =
      .error ("Failed to delete from S3: " ++ "timeout") := by
  constructor
  · exact (c10_local_delete_idempotent s3DeleteFails fsAbsent "data" "pid"
      "doc.txt").1 rfl rfl
  · exact (c10_local_delete_idempotent s3DeleteFails fsAbsent "data" "pid"
      "s3://attachments/pid/doc.txt").2 "attachments/pid/doc.txt" rfl rfl
      "timeout" rfl

/-- A local filesystem on which the target file exists and every operation
succeeds. -/
def fsPresent : LocalFs :=
  ⟨fun _ => .ok (), fun _ => .ok (), fun _ _ => .ok (), fun _ => .ok [1],
    fun _ => true, fun _ => .ok ()⟩

/-- Claim C8 counterexample: a missing local file does not surface as any
error value from delete_file — the result is Ok (), identical to the result
of deleting a file that exists, so no caller can decide from the returned
value that the file was missing, contradicting the claim that every failure
(including missing files) surfaces as a distinguishing StorageError. -/
theorem c8_counterexample :
    delete_file s3DeleteFails fsAbsent "data" "pid" "doc.txt" = .ok () ∧
    delete_file s3DeleteFails fsPresent "data" "pid" "doc.txt" = .ok () :=
  ⟨rfl, rfl⟩

/-- Claim C8 (amended): save_file, get_file and delete_file report failures as
plain Result strings prefixed by the failing operation — there is no
structured StorageError type; a local read failure is reported by one and the
same formatter ("Failed to read file: " ++ io message) whatever its cause, so
not-found is distinguished from other failures only by the embedded backend
message; and a delete of an absent local file is no failure at all (Ok). -/
theorem c8_storage_errors_are_strings (s3 : S3State) (fs : LocalFs)
    (dataDir pasta_id storage_path : String) :
    (dropPre "s3://" storage_path = none →
      (∀ e, fs.readRes (dataDir ++ "/attachments/" ++ pasta_id ++ "/" ++ storage_path) = .error e →
        get_file s3 fs dataDir pasta_id storage_path =
          .error ("Failed to read file: " ++ e)) ∧
      (fs.fileExists (dataDir ++ "/attachments/" ++ pasta_id ++ "/" ++ storage_path) = false →
        delete_file s3 fs dataDir pasta_id storage_path = .ok ())) ∧
    (∀ s3Path, dropPre "s3://" storage_path = some s3Path → s3.bucketOk = false →
      get_file s3 fs dataDir pasta_id storage_path =
        .error ("Failed to get S3 bucket: " ++ s3.bucketErr) ∧
      ∀ data, save_file s3 fs dataDir pasta_id storage_path data =
        .error ("Failed to get S3 bucket: " ++ s3.bucketErr)) := by
  refine ⟨fun hnone => ⟨?_, ?_⟩, fun sp h1 hb => ⟨?_, fun _ => ?_⟩⟩
  · intro e he
    simp [get_file, hnone, he]
  · intro hex
    simp [delete_file, hnone, hex]
  · simp [get_file, h1, hb]
  · simp [save_file, h1, hb]

/-- An unreachable S3 backend. -/
def s3Down : S3State :=
  ⟨false, "connection refused", fun _ _ => .error "down", fun _ => .error "down",
    fun _ => .error "down"⟩

/-- Claim C8 witness: the amended statement evaluated at concrete states — a
missing local file read error is wrapped by the read formatter, a missing
local file delete is Ok, and an unreachable bucket fails get_file with the
bucket formatter. -/
theorem c8_witness :
    get_file s3Down fsAbsent "data" "pid" "doc.txt" =
      .error ("Failed to read file: " ++ "No such file or directory (os error 2)") ∧
    delete_file s3Down fsAbsent "data" "pid" "doc.txt" = .ok () ∧
    get_file s3Down fsAbsent "data" "pid" "s3://x" =
      .error ("Failed to get S3 bucket: " ++ "connection refused") := by
  refine ⟨?_, ?_, ?_⟩
  · exact ((c8_storage_errors_are_strings s3Down fsAbsent "data" "pid"
      "doc.txt").1 rfl).1 "No such file or directory (os error 2)" rfl
  · exact ((c8_storage_errors_are_strings s3Down fsAbsent "data" "pid"
      "doc.txt").1 rfl).2 rfl
  · exact ((c8_storage_errors_are_strings s3Down fsAbsent "data" "pid"
      "s3://x").2 "x" rfl rfl).1

/-- One creation request as the create endpoint sees it: the value drawn from
the random source (modelled from the spec as an arbitrary natural that the
u16 generator reduces), the current time, ARGS.editable and the computed
expiration timestamp. -/
structure CreateReq where
  rand : Nat
  now : Int
  editable : Bool
  expiration : Int
deriving DecidableEq

/-- src/endpoints/create.rs: the freshly initialised Pasta of fn create —
id: rand::thread_rng().gen::<u16>() as u64 (a 16-bit value widened to 64
bits, modelled as rand % 2^16), all other fields as in the initializer. -/
def new_pasta (e : CreateReq) : Pasta :=
  ⟨e.rand % 65536, "", none, "", false, false, e.editable, false, false,
    some "", e.now, e.expiration, e.now, 0, 0, ""⟩

/-- src/endpoints/create.rs: pastas.push(new_pasta). -/
def insert_pasta (store : List Pasta) (p : Pasta) : List Pasta :=
  store ++ [p]

/-- The store populated only through the create operation, starting empty. -/
def store_after_creates (evs : List CreateReq) : List Pasta :=
  evs.foldl (fun st e => insert_pasta st (new_pasta e)) []

lemma store_after_creates_mem : ∀ (evs : List CreateReq) (st : List Pasta)
    (p : Pasta), p ∈ evs.foldl (fun st e => insert_pasta st (new_pasta e)) st →
    p ∈ st ∨ ∃ e ∈ evs, p = new_pasta e := by
  intro evs
  induction evs with
  | nil =>
    intro st p hp
    exact Or.inl hp
  | cons e evs ih =>
    intro st p hp
    rw [List.foldl_cons] at hp
    rcases ih (insert_pasta st (new_pasta e)) p hp with h | ⟨e', he', hpe⟩
    · rcases List.mem_append.mp h with h' | h'
      · exact Or.inl h'
      · refine Or.inr ⟨e, List.mem_cons_self e evs, ?_⟩
        simpa using h'
    · exact Or.inr ⟨e', List.mem_cons_of_mem e he', hpe⟩

/-- Claim C9: every paste in a store populated through creation has an id in
[0, 65535] — the id is drawn as a 16-bit random value widened to u64 even
though the field is 64-bit. -/
theorem c9_created_id_in_u16_range (evs : List CreateReq) (p : Pasta)
    (hp : p ∈ store_after_creates evs) : p.id ≤ 65535 := by
  rcases store_after_creates_mem evs [] p hp with h | ⟨e, _, rfl⟩
  · cases h
  · have h := Nat.mod_lt e.rand (y := 65536) (by norm_num)
    simpa [new_pasta] using Nat.lt_succ_iff.mp h

/-- Claim C9 witness: a creation whose random draw exceeds u16 range still
yields an id within [0, 65535]. -/
theorem c9_witness : (new_pasta ⟨70000, 5, true, 0⟩).id ≤ 65535 :=
  c9_created_id_in_u16_range [⟨70000, 5, true, 0⟩] (new_pasta ⟨70000, 5, true, 0⟩)
    (by decide)
